import Mathlib

/-!
Shallow embedding of the conversation-lifecycle core of this repository:
the pure history-truncation engine (codex-rs/core/src/history_truncation.rs)
and the conversation manager with its registry
(codex-rs/core/src/conversation_manager.rs), together with theorems settling
the specification's claims about them.

External collaborators (the turn classifier, the session spawner, the rollout
loader) are modelled as explicit parameters/oracles, following the spec's
interface contracts; the code of this core is translated directly.
-/

set_option autoImplicit false

/-- Semantic classification of a transcript entry
(codex_protocol::items::TurnItem); only the UserMessage variant matters to
this core, every other classification is collapsed into OtherTurn. -/
inductive TurnItem where
  | UserMessage (message : String)
  | OtherTurn
deriving DecidableEq, Repr

/-- Transcript entry (codex_protocol::models::ResponseItem): a user/assistant
Message variant (role + content) plus non-message variants (reasoning traces,
function/tool calls, others) that are structurally opaque to this core. -/
inductive ResponseItem where
  | Message (id : Option String) (role : String) (content : List String)
  | Reasoning (id : String) (summary : List String)
  | FunctionCall (id : Option String) (name : String) (arguments : String) (call_id : String)
  | OtherVariant
deriving DecidableEq, Repr

/-- Persisted log entry (codex_protocol::protocol::RolloutItem): the variant
relevant to truncation wraps a ResponseItem; other rollout entry kinds are
opaque here. -/
inductive RolloutItem where
  | ResponseItem (item : ResponseItem)
  | OtherRolloutItem
deriving DecidableEq, Repr

/-- Type of the external turn classifier
(event_mapping::parse_turn_item, an external collaborator per the spec:
classify(ResponseItem) -> Option TurnItem, synchronous and pure). -/
abbrev TurnClassifier := ResponseItem → Option TurnItem

/-- Boundary test used by user_message_positions_in_response_items: the item
is a ResponseItem::Message whose parsed turn item is
Some(TurnItem::UserMessage(_)). -/
def is_user_message_boundary (parse_turn_item : TurnClassifier) : ResponseItem → Bool
  | item@(ResponseItem.Message _ _ _) =>
      match parse_turn_item item with
      | some (TurnItem.UserMessage _) => true
      | _ => false
  | _ => false

/-- Boundary test used by user_message_positions_in_rollout: the item is a
RolloutItem::ResponseItem(ResponseItem::Message) whose parsed turn item is
Some(TurnItem::UserMessage(_)). -/
def is_user_message_boundary_in_rollout (parse_turn_item : TurnClassifier) : RolloutItem → Bool
  | RolloutItem.ResponseItem item => is_user_message_boundary parse_turn_item item
  | _ => false

/-- Index scan shared by both position functions: the enumerate-and-push loop
of the source, returning the indices (counting from s) of entries satisfying
the boundary test, in increasing order. -/
def positionsFrom {α : Type} (p : α → Bool) : Nat → List α → List Nat
  | _, [] => []
  | s, x :: xs =>
      if p x then s :: positionsFrom p (s + 1) xs else positionsFrom p (s + 1) xs

/-- Translation of user_message_positions_in_rollout: indices of user message
boundaries in a rollout stream. -/
def user_message_positions_in_rollout (parse_turn_item : TurnClassifier)
    (items : List RolloutItem) : List Nat :=
  positionsFrom (is_user_message_boundary_in_rollout parse_turn_item) 0 items

/-- Translation of user_message_positions_in_response_items: indices of user
message boundaries in an in-memory transcript. -/
def user_message_positions_in_response_items (parse_turn_item : TurnClassifier)
    (items : List ResponseItem) : List Nat :=
  positionsFrom (is_user_message_boundary parse_turn_item) 0 items

/-- Translation of truncate_rollout_before_nth_user_message_from_start:
the prefix of items cut strictly before the nth (0-based) user message; empty
when fewer than or equal to n_from_start user messages exist. The source
indexes user_positions[n_from_start] under the length guard; getD's default
is unreachable there. -/
def truncate_rollout_before_nth_user_message_from_start (parse_turn_item : TurnClassifier)
    (items : List RolloutItem) (n_from_start : Nat) : List RolloutItem :=
  let user_positions := user_message_positions_in_rollout parse_turn_item items
  if user_positions.length ≤ n_from_start then
    []
  else
    items.take (user_positions.getD n_from_start 0)

/-- Translation of drop_last_n_user_turns_from_response_items: the prefix of
items obtained by dropping the last num_turns user turns. num_turns is a u32
in the source and usize::try_from(num_turns) never fails on the supported
targets, so n_from_end = num_turns as a Nat. -/
def drop_last_n_user_turns_from_response_items (parse_turn_item : TurnClassifier)
    (items : List ResponseItem) (num_turns : Nat) : List ResponseItem :=
  if num_turns = 0 then
    items
  else
    let user_positions := user_message_positions_in_response_items parse_turn_item items
    match user_positions.head? with
    | none => items
    | some first_user_idx =>
        let n_from_end := num_turns
        let cut_idx :=
          if user_positions.length ≤ n_from_end then
            first_user_idx
          else
            user_positions.getD (user_positions.length - n_from_end) 0
        items.take cut_idx

/-- Modelled from the spec: a concrete instance of the external turn
classifier (classify(ResponseItem) -> Option TurnItem, pure), classifying a
Message by its role; used only to exercise the engine on concrete inputs. -/
def classify_by_role : TurnClassifier
  | ResponseItem.Message _ role content =>
      if role = "user" then some (TurnItem.UserMessage (String.join content))
      else some TurnItem.OtherTurn
  | _ => none

/-- Shorthand for a user message transcript entry, mirroring the user_msg
test helper. -/
def user_msg (text : String) : ResponseItem :=
  ResponseItem.Message none "user" [text]

/-- Shorthand for an assistant message transcript entry, mirroring the
assistant_msg test helper. -/
def assistant_msg (text : String) : ResponseItem :=
  ResponseItem.Message none "assistant" [text]

example :
    user_message_positions_in_response_items classify_by_role
      [user_msg "u1", assistant_msg "a1", assistant_msg "a2", user_msg "u2",
       assistant_msg "a3", ResponseItem.Reasoning "r1" ["s"],
       ResponseItem.FunctionCall none "tool" "()" "c1", assistant_msg "a4"] = [0, 3] := by
  decide

example :
    truncate_rollout_before_nth_user_message_from_start classify_by_role
      ([user_msg "u1", assistant_msg "a1", assistant_msg "a2", user_msg "u2",
        assistant_msg "a3"].map RolloutItem.ResponseItem) 1 =
      ([user_msg "u1", assistant_msg "a1", assistant_msg "a2"].map RolloutItem.ResponseItem) := by
  decide

example :
    truncate_rollout_before_nth_user_message_from_start classify_by_role
      ([user_msg "u1", assistant_msg "a1", assistant_msg "a2", user_msg "u2",
        assistant_msg "a3"].map RolloutItem.ResponseItem) 2 = [] := by
  decide

example :
    drop_last_n_user_turns_from_response_items classify_by_role
      [assistant_msg "session prefix item", user_msg "u1", assistant_msg "a1",
       user_msg "u2", assistant_msg "a2"] 1 =
      [assistant_msg "session prefix item", user_msg "u1", assistant_msg "a1"] := by
  decide

example :
    drop_last_n_user_turns_from_response_items classify_by_role
      [assistant_msg "session prefix item", user_msg "u1", assistant_msg "a1",
       user_msg "u2", assistant_msg "a2"] 99 =
      [assistant_msg "session prefix item"] := by
  decide

/-- Opaque, externally generated conversation identifier
(codex_protocol::ConversationId), modelled as a Nat. -/
abbrev ConversationId := Nat

/-- Opaque handle to the external session execution engine (crate::codex::Codex),
modelled as a Nat token; this core only passes it along. -/
abbrev Codex := Nat

/-- Seed history for a new session (codex_protocol::protocol::InitialHistory);
per the spec's data model either New (empty) or Forked (an ordered sequence of
RolloutItem). -/
inductive InitialHistory where
  | New
  | Forked (items : List RolloutItem)
deriving DecidableEq, Repr

/-- Rollout items carried by an InitialHistory (its get_rollout_items
accessor, used by fork_conversation). -/
def InitialHistory.get_rollout_items : InitialHistory → List RolloutItem
  | InitialHistory.New => []
  | InitialHistory.Forked items => items

/-- Mandatory first event payload of a session
(crate::protocol::SessionConfiguredEvent): carries the persisted-log path and
session metadata (collapsed into one opaque field). -/
structure SessionConfiguredEvent where
  rollout_path : String
  metadata : Nat
deriving DecidableEq, Repr

/-- Event message variants (crate::protocol::EventMsg): the SessionConfigured
variant plus everything else, opaque to the manager. -/
inductive EventMsg where
  | SessionConfigured (event : SessionConfiguredEvent)
  | OtherEventMsg
deriving DecidableEq, Repr

/-- Event (crate::protocol::Event): a submission correlation id plus a
message. -/
structure Event where
  id : String
  msg : EventMsg
deriving DecidableEq, Repr

/-- Error taxonomy (crate::error::CodexErr), restricted to the kinds this
core produces or propagates. -/
inductive CodexErr where
  | SessionConfiguredNotFirstEvent
  | ConversationNotFound (id : ConversationId)
  | SpawnFailed
  | RolloutLoadFailed
deriving DecidableEq, Repr

/-- Modelled from the spec: the fixed initial submission identifier
(crate::codex::INITIAL_SUBMIT_ID, defined outside the shown sources); the
spec only requires it to be one fixed identifier that the first event's id is
compared against. -/
def INITIAL_SUBMIT_ID : String := "0"

/-- Shared conversation handle (crate::codex_conversation::CodexConversation):
built by CodexConversation::new(codex, rollout_path). -/
structure CodexConversation where
  codex : Codex
  rollout_path : String
deriving DecidableEq, Repr

/-- Result of a successful creation path (struct NewConversation): the id,
the handle, and the SessionConfigured event. -/
structure NewConversation where
  conversation_id : ConversationId
  conversation : CodexConversation
  session_configured : SessionConfiguredEvent
deriving DecidableEq, Repr

/-- Successful result of the external Codex::spawn (struct CodexSpawnOk). -/
structure CodexSpawnOk where
  codex : Codex
  conversation_id : ConversationId
deriving DecidableEq, Repr

/-- Registry backing store: the HashMap<ConversationId, Arc<CodexConversation>>
modelled as an association list with map semantics (insert overwrites any
previous binding of the key). -/
abbrev Registry := List (ConversationId × CodexConversation)

/-- Lookup in the registry (HashMap::get). -/
def registry_get (m : Registry) (id : ConversationId) : Option CodexConversation :=
  (m.find? (fun p => p.1 == id)).map Prod.snd

/-- Insert into the registry (HashMap::insert), overwriting on duplicate id. -/
def registry_insert (m : Registry) (id : ConversationId) (c : CodexConversation) : Registry :=
  (id, c) :: m.filter (fun p => p.1 != id)

/-- Remove from the registry (HashMap::remove), returning the removed handle
if present. -/
def registry_remove (m : Registry) (id : ConversationId) :
    Option CodexConversation × Registry :=
  (registry_get m id, m.filter (fun p => p.1 != id))

/-- Mutable state of the ConversationManager: the conversations registry.
The other fields (auth manager, models manager, skills manager, session
source) are shared handles to external collaborators that no claim touches. -/
structure ConversationManager where
  conversations : Registry
deriving DecidableEq, Repr

/-- Modelled from the spec: oracles standing in for the awaited external
calls — the Session Spawner (Codex::spawn, keyed by the initial history this
core passes it) and the session's event stream (codex.next_event()). -/
structure SpawnEnv where
  spawn : InitialHistory → Except CodexErr CodexSpawnOk
  next_event : Codex → Except CodexErr Event

/-- Translation of ConversationManager::finalize_spawn: await the first event
(here an already-awaited Except value); require its id to be
INITIAL_SUBMIT_ID and its message to be SessionConfigured, otherwise fail
with SessionConfiguredNotFirstEvent; on success build the handle from the
event's rollout path, insert it into the registry keyed by the spawner's id,
and return id, handle and event. The manager state is threaded explicitly;
an error leaves it unchanged (no registry mutation). -/
def finalize_spawn (st : ConversationManager) (codex : Codex)
    (first_event : Except CodexErr Event) (conversation_id : ConversationId) :
    Except CodexErr NewConversation × ConversationManager :=
  match first_event with
  | Except.error e => (Except.error e, st)
  | Except.ok event =>
      match event with
      | { id := id, msg := EventMsg.SessionConfigured session_configured } =>
          if id = INITIAL_SUBMIT_ID then
            let conversation : CodexConversation :=
              { codex := codex, rollout_path := session_configured.rollout_path }
            (Except.ok
              { conversation_id := conversation_id
                conversation := conversation
                session_configured := session_configured },
             { st with conversations :=
                registry_insert st.conversations conversation_id conversation })
          else
            (Except.error CodexErr.SessionConfiguredNotFirstEvent, st)
      | _ => (Except.error CodexErr.SessionConfiguredNotFirstEvent, st)

/-- Translation of ConversationManager::spawn_conversation: spawn with empty
initial history, then finalize. -/
def spawn_conversation (st : ConversationManager) (env : SpawnEnv) :
    Except CodexErr NewConversation × ConversationManager :=
  match env.spawn InitialHistory.New with
  | Except.error e => (Except.error e, st)
  | Except.ok ok => finalize_spawn st ok.codex (env.next_event ok.codex) ok.conversation_id

/-- Translation of ConversationManager::new_conversation: delegates to
spawn_conversation. -/
def new_conversation (st : ConversationManager) (env : SpawnEnv) :
    Except CodexErr NewConversation × ConversationManager :=
  spawn_conversation st env

/-- Translation of ConversationManager::resume_conversation_with_history:
spawn with the caller-supplied initial history, then finalize. -/
def resume_conversation_with_history (st : ConversationManager) (env : SpawnEnv)
    (initial_history : InitialHistory) :
    Except CodexErr NewConversation × ConversationManager :=
  match env.spawn initial_history with
  | Except.error e => (Except.error e, st)
  | Except.ok ok => finalize_spawn st ok.codex (env.next_event ok.codex) ok.conversation_id

/-- Translation of ConversationManager::resume_conversation_from_rollout:
the rollout loader's already-awaited result is passed in; its errors
propagate, its history is resumed. -/
def resume_conversation_from_rollout (st : ConversationManager) (env : SpawnEnv)
    (loaded : Except CodexErr InitialHistory) :
    Except CodexErr NewConversation × ConversationManager :=
  match loaded with
  | Except.error e => (Except.error e, st)
  | Except.ok initial_history => resume_conversation_with_history st env initial_history

/-- Wrap step of ConversationManager::fork_conversation: the truncation
result becomes the seed history, New when empty and Forked otherwise. -/
def fork_initial_history (parse_turn_item : TurnClassifier)
    (rollout_items : List RolloutItem) (nth_user_message : Nat) : InitialHistory :=
  let truncated := truncate_rollout_before_nth_user_message_from_start
    parse_turn_item rollout_items nth_user_message
  if truncated.isEmpty then InitialHistory.New else InitialHistory.Forked truncated

/-- Translation of ConversationManager::fork_conversation: load the rollout
(already-awaited result passed in), truncate before the nth user message,
wrap the result (New when empty, Forked otherwise), spawn with it and
finalize. -/
def fork_conversation (st : ConversationManager) (env : SpawnEnv)
    (parse_turn_item : TurnClassifier) (loaded : Except CodexErr InitialHistory)
    (nth_user_message : Nat) :
    Except CodexErr NewConversation × ConversationManager :=
  match loaded with
  | Except.error e => (Except.error e, st)
  | Except.ok history0 =>
      let rollout_items := history0.get_rollout_items
      let history := fork_initial_history parse_turn_item rollout_items nth_user_message
      match env.spawn history with
      | Except.error e => (Except.error e, st)
      | Except.ok ok => finalize_spawn st ok.codex (env.next_event ok.codex) ok.conversation_id

/-- Translation of ConversationManager::get_conversation: lookup, failing
with ConversationNotFound when absent. -/
def get_conversation (st : ConversationManager) (conversation_id : ConversationId) :
    Except CodexErr CodexConversation :=
  match registry_get st.conversations conversation_id with
  | some conversation => Except.ok conversation
  | none => Except.error (CodexErr.ConversationNotFound conversation_id)

/-- Translation of ConversationManager::remove_conversation: remove and
return the handle if present; the state is threaded explicitly. -/
def remove_conversation (st : ConversationManager) (conversation_id : ConversationId) :
    Option CodexConversation × ConversationManager :=
  let r := registry_remove st.conversations conversation_id
  (r.1, { st with conversations := r.2 })

theorem mem_positionsFrom {α : Type} (p : α → Bool) (l : List α) (s i : Nat) :
    i ∈ positionsFrom p s l ↔
      ∃ j, ∃ h : j < l.length, i = s + j ∧ p (l.get ⟨j, h⟩) = true := by
  induction l generalizing s i with
  | nil => simp [positionsFrom]
  | cons x xs ih =>
    cases hp : p x with
    | true =>
      simp only [positionsFrom, hp, if_true, List.mem_cons]
      constructor
      · rintro (rfl | hmem)
        · exact ⟨0, Nat.succ_pos _, by omega, by simpa using hp⟩
        · obtain ⟨j, hj, hij, hpj⟩ := (ih (s + 1) i).mp hmem
          exact ⟨j + 1, Nat.succ_lt_succ hj, by omega, by simpa using hpj⟩
      · rintro ⟨j, hj, rfl, hpj⟩
        cases j with
        | zero => exact Or.inl (by omega)
        | succ j' =>
          refine Or.inr ((ih (s + 1) _).mpr ⟨j', Nat.lt_of_succ_lt_succ hj, by omega, ?_⟩)
          simpa using hpj
    | false =>
      simp only [positionsFrom, hp, Bool.false_eq_true, if_false]
      rw [ih]
      constructor
      · rintro ⟨j, hj, hij, hpj⟩
        exact ⟨j + 1, Nat.succ_lt_succ hj, by omega, by simpa using hpj⟩
      · rintro ⟨j, hj, rfl, hpj⟩
        cases j with
        | zero =>
          exact absurd (by simpa using hpj) (by simp [hp])
        | succ j' =>
          exact ⟨j', Nat.lt_of_succ_lt_succ hj, by omega, by simpa using hpj⟩

theorem le_of_mem_positionsFrom {α : Type} {p : α → Bool} {l : List α} {s i : Nat}
    (h : i ∈ positionsFrom p s l) : s ≤ i := by
  obtain ⟨j, hj, rfl, -⟩ := (mem_positionsFrom p l s i).mp h
  omega

theorem lt_length_of_mem_positionsFrom {α : Type} {p : α → Bool} {l : List α} {s i : Nat}
    (h : i ∈ positionsFrom p s l) : i < s + l.length := by
  obtain ⟨j, hj, rfl, -⟩ := (mem_positionsFrom p l s i).mp h
  omega

theorem pairwise_positionsFrom {α : Type} (p : α → Bool) (l : List α) (s : Nat) :
    List.Pairwise (· < ·) (positionsFrom p s l) := by
  induction l generalizing s with
  | nil => simp [positionsFrom]
  | cons x xs ih =>
    cases hp : p x with
    | true =>
      simp only [positionsFrom, hp, if_true]
      refine List.pairwise_cons.mpr ⟨fun y hy => ?_, ih (s + 1)⟩
      have := le_of_mem_positionsFrom hy
      omega
    | false =>
      simpa only [positionsFrom, hp, Bool.false_eq_true, if_false] using ih (s + 1)

theorem positionsFrom_take {α : Type} (p : α → Bool) (l : List α) (s m : Nat) :
    positionsFrom p s (l.take m) =
      (positionsFrom p s l).filter (fun i => i < s + m) := by
  induction l generalizing s m with
  | nil => simp [positionsFrom]
  | cons x xs ih =>
    cases m with
    | zero =>
      simp only [List.take_zero]
      have h0 : positionsFrom p s ([] : List α) = [] := rfl
      rw [h0]
      symm
      refine List.filter_eq_nil_iff.mpr (fun a ha => ?_)
      have := le_of_mem_positionsFrom ha
      simp only [decide_eq_true_eq]
      omega
    | succ m' =>
      cases hp : p x with
      | true =>
        simp only [List.take_succ_cons, positionsFrom, hp, if_true, List.filter_cons]
        have hs : s < s + (m' + 1) := by omega
        simp only [hs, decide_True, if_true]
        rw [ih (s + 1) m']
        have harith : s + 1 + m' = s + (m' + 1) := by omega
        simp only [harith]
      | false =>
        simp only [List.take_succ_cons, positionsFrom, hp, Bool.false_eq_true, if_false]
        rw [ih (s + 1) m']
        have harith : s + 1 + m' = s + (m' + 1) := by omega
        simp only [harith]

theorem positionsFrom_map {α β : Type} (p : β → Bool) (f : α → β) (l : List α) (s : Nat) :
    positionsFrom p s (l.map f) = positionsFrom (fun a => p (f a)) s l := by
  induction l generalizing s with
  | nil => simp [positionsFrom]
  | cons x xs ih =>
    cases hp : p (f x) with
    | true => simp [positionsFrom, hp, ih]
    | false => simp [positionsFrom, hp, ih]

theorem filter_lt_get_eq_take (P : List Nat) (hP : List.Pairwise (· < ·) P)
    (n : Nat) (hn : n < P.length) :
    P.filter (fun i => i < P.get ⟨n, hn⟩) = P.take n := by
  induction P generalizing n with
  | nil => simp at hn
  | cons p P' ih =>
    obtain ⟨hall, hpw⟩ := List.pairwise_cons.mp hP
    cases n with
    | zero =>
      have hc : ¬ (p < p) := by omega
      have hg : (p :: P').get ⟨0, hn⟩ = p := rfl
      simp only [hg, List.take_zero, List.filter_cons]
      rw [if_neg (by simp [hc])]
      refine List.filter_eq_nil_iff.mpr (fun a ha => ?_)
      have := hall a ha
      simp only [decide_eq_true_eq]
      omega
    | succ n' =>
      have hn' : n' < P'.length := Nat.lt_of_succ_lt_succ hn
      have hget : (p :: P').get ⟨n' + 1, hn⟩ = P'.get ⟨n', hn'⟩ := rfl
      simp only [hget, List.take_succ_cons, List.filter_cons]
      have hmem : P'.get ⟨n', hn'⟩ ∈ P' := List.get_mem P' n' hn'
      have hc : p < P'.get ⟨n', hn'⟩ := hall _ hmem
      simp only [hc, decide_True, if_true]
      rw [ih hpw n' hn']

theorem getD_eq_get_of_lt {α : Type} (l : List α) (d : α) (n : Nat) (h : n < l.length) :
    l.getD n d = l.get ⟨n, h⟩ := by
  induction l generalizing n with
  | nil => simp at h
  | cons x xs ih =>
    cases n with
    | zero => rfl
    | succ n' => exact ih n' (Nat.lt_of_succ_lt_succ h)

theorem isPrefix_take {α : Type} (l : List α) (n : Nat) : l.take n <+: l :=
  ⟨l.drop n, List.take_append_drop n l⟩

theorem isPrefix_nil {α : Type} (l : List α) : ([] : List α) <+: l :=
  ⟨l, rfl⟩

theorem isPrefix_self {α : Type} (l : List α) : l <+: l :=
  ⟨[], List.append_nil l⟩

theorem truncate_eq_nil (parse_turn_item : TurnClassifier)
    (items : List RolloutItem) (n : Nat)
    (hle : (user_message_positions_in_rollout parse_turn_item items).length ≤ n) :
    truncate_rollout_before_nth_user_message_from_start parse_turn_item items n = [] := by
  simp [truncate_rollout_before_nth_user_message_from_start, hle]

theorem truncate_eq_take (parse_turn_item : TurnClassifier)
    (items : List RolloutItem) (n : Nat)
    (h : n < (user_message_positions_in_rollout parse_turn_item items).length) :
    truncate_rollout_before_nth_user_message_from_start parse_turn_item items n =
      items.take ((user_message_positions_in_rollout parse_turn_item items).get ⟨n, h⟩) := by
  have hnle : ¬ ((user_message_positions_in_rollout parse_turn_item items).length ≤ n) := by
    omega
  simp only [truncate_rollout_before_nth_user_message_from_start, if_neg hnle]
  rw [getD_eq_get_of_lt _ _ _ h]

theorem drop_eq_take_of_many (parse_turn_item : TurnClassifier)
    (items : List ResponseItem) (num_turns : Nat)
    (h1 : 1 ≤ num_turns)
    (hP : user_message_positions_in_response_items parse_turn_item items ≠ [])
    (hk : (user_message_positions_in_response_items parse_turn_item items).length ≤ num_turns) :
    drop_last_n_user_turns_from_response_items parse_turn_item items num_turns =
      items.take ((user_message_positions_in_response_items parse_turn_item items).getD 0 0) := by
  have hne : ¬ num_turns = 0 := by omega
  rcases hPe : user_message_positions_in_response_items parse_turn_item items with _ | ⟨p0, P'⟩
  · exact absurd hPe hP
  · rw [hPe] at hk
    simp only [drop_last_n_user_turns_from_response_items, if_neg hne, hPe, List.head?_cons,
      if_pos hk]
    rfl

theorem drop_eq_take_of_few (parse_turn_item : TurnClassifier)
    (items : List ResponseItem) (num_turns : Nat)
    (h1 : 1 ≤ num_turns)
    (hk : num_turns < (user_message_positions_in_response_items parse_turn_item items).length) :
    drop_last_n_user_turns_from_response_items parse_turn_item items num_turns =
      items.take ((user_message_positions_in_response_items parse_turn_item items).getD
        ((user_message_positions_in_response_items parse_turn_item items).length - num_turns)
        0) := by
  have hne : ¬ num_turns = 0 := by omega
  rcases hPe : user_message_positions_in_response_items parse_turn_item items with _ | ⟨p0, P'⟩
  · rw [hPe] at hk
    simp at hk
  · rw [hPe] at hk
    have hkk : ¬ ((p0 :: P').length ≤ num_turns) := by omega
    simp only [drop_last_n_user_turns_from_response_items, if_neg hne, hPe, List.head?_cons,
      if_neg hkk]

theorem is_user_message_boundary_iff (parse_turn_item : TurnClassifier) (item : ResponseItem) :
    is_user_message_boundary parse_turn_item item = true ↔
      ∃ mid role content m, item = ResponseItem.Message mid role content ∧
        parse_turn_item (ResponseItem.Message mid role content) =
          some (TurnItem.UserMessage m) := by
  cases item with
  | Message mid role content =>
    simp only [is_user_message_boundary]
    cases hc : parse_turn_item (ResponseItem.Message mid role content) with
    | none => simp [hc]
    | some t =>
      cases t with
      | UserMessage m =>
        simp only [hc]
        constructor
        · intro
          exact ⟨mid, role, content, m, rfl, hc⟩
        · intro
          trivial
      | OtherTurn => simp [hc]
  | Reasoning i s => simp [is_user_message_boundary]
  | FunctionCall i n a c => simp [is_user_message_boundary]
  | OtherVariant => simp [is_user_message_boundary]

theorem is_user_message_boundary_in_rollout_iff (parse_turn_item : TurnClassifier)
    (item : RolloutItem) :
    is_user_message_boundary_in_rollout parse_turn_item item = true ↔
      ∃ mid role content m, item = RolloutItem.ResponseItem (ResponseItem.Message mid role content) ∧
        parse_turn_item (ResponseItem.Message mid role content) =
          some (TurnItem.UserMessage m) := by
  cases item with
  | ResponseItem inner =>
    simp only [is_user_message_boundary_in_rollout, is_user_message_boundary_iff]
    constructor
    · rintro ⟨mid, role, content, m, rfl, hm⟩
      exact ⟨mid, role, content, m, rfl, hm⟩
    · rintro ⟨mid, role, content, m, he, hm⟩
      exact ⟨mid, role, content, m, by injection he, hm⟩
  | OtherRolloutItem => simp [is_user_message_boundary_in_rollout]

theorem user_message_positions_in_rollout_map (parse_turn_item : TurnClassifier)
    (items : List ResponseItem) :
    user_message_positions_in_rollout parse_turn_item (items.map RolloutItem.ResponseItem) =
      user_message_positions_in_response_items parse_turn_item items := by
  unfold user_message_positions_in_rollout user_message_positions_in_response_items
  rw [positionsFrom_map]
  congr 1

theorem registry_get_insert (m : Registry) (id : ConversationId) (c : CodexConversation) :
    registry_get (registry_insert m id c) id = some c := by
  simp [registry_get, registry_insert, List.find?_cons]

theorem find_filter_ne (m : Registry) (idkey j : ConversationId) (h : j ≠ idkey) :
    (m.filter (fun p => p.1 != idkey)).find? (fun p => p.1 == j) =
      m.find? (fun p => p.1 == j) := by
  induction m with
  | nil => rfl
  | cons q m' ih =>
    by_cases hqk : q.1 = idkey
    · have h1 : (q.1 != idkey) = false := by simp [hqk]
      have h2 : (q.1 == j) = false := by
        refine beq_eq_false_iff_ne.mpr (fun hh => h ?_)
        rw [← hh, hqk]
      simp [List.filter_cons, List.find?_cons, h1, h2, ih]
    · have h1 : (q.1 != idkey) = true := bne_iff_ne.mpr hqk
      by_cases hqj : q.1 = j
      · have h2 : (q.1 == j) = true := beq_iff_eq.mpr hqj
        simp [List.filter_cons, List.find?_cons, h1, h2]
      · have h2 : (q.1 == j) = false := beq_eq_false_iff_ne.mpr hqj
        simp [List.filter_cons, List.find?_cons, h1, h2, ih]

theorem registry_get_insert_ne (m : Registry) (id : ConversationId) (c : CodexConversation)
    (j : ConversationId) (h : j ≠ id) :
    registry_get (registry_insert m id c) j = registry_get m j := by
  have hij : (id == j) = false := beq_eq_false_iff_ne.mpr (fun hh => h hh.symm)
  simp only [registry_get, registry_insert, List.find?_cons, hij]
  rw [find_filter_ne m id j h]

theorem registry_get_remove_self (m : Registry) (id : ConversationId) :
    registry_get (m.filter (fun p => p.1 != id)) id = none := by
  have hfind : (m.filter (fun p => p.1 != id)).find? (fun p => p.1 == id) = none := by
    refine List.find?_eq_none.mpr (fun x hx => ?_)
    have hx2 : x.1 ≠ id := bne_iff_ne.mp (List.mem_filter.mp hx).2
    simp [hx2]
  simp [registry_get, hfind]

theorem registry_get_remove_ne (m : Registry) (id j : ConversationId) (h : j ≠ id) :
    registry_get (m.filter (fun p => p.1 != id)) j = registry_get m j := by
  simp only [registry_get]
  rw [find_filter_ne m id j h]

theorem truncate_eq_take_getD (parse_turn_item : TurnClassifier)
    (items : List RolloutItem) (n : Nat)
    (h : n < (user_message_positions_in_rollout parse_turn_item items).length) :
    truncate_rollout_before_nth_user_message_from_start parse_turn_item items n =
      items.take ((user_message_positions_in_rollout parse_turn_item items).getD n 0) := by
  have hnle : ¬ ((user_message_positions_in_rollout parse_turn_item items).length ≤ n) := by
    omega
  simp only [truncate_rollout_before_nth_user_message_from_start, if_neg hnle]

/-- Sample transcript from the observed behavior: two user turns followed by
assistant, reasoning and tool-call entries. -/
def sample_items : List ResponseItem :=
  [user_msg "u1", assistant_msg "a1", assistant_msg "a2", user_msg "u2",
   assistant_msg "a3", ResponseItem.Reasoning "r1" ["s"],
   ResponseItem.FunctionCall none "tool" "()" "c1", assistant_msg "a4"]

/-- Sample rollout stream: sample_items wrapped element-wise. -/
def sample_rollout : List RolloutItem :=
  sample_items.map RolloutItem.ResponseItem

/-- Sample transcript with a session-prefix entry before the first user
message. -/
def sample_items2 : List ResponseItem :=
  [assistant_msg "session prefix item", user_msg "u1", assistant_msg "a1",
   user_msg "u2", assistant_msg "a2"]

/-- Sample transcript with no user-message boundary at all. -/
def sample_no_user : List ResponseItem :=
  [assistant_msg "a1", ResponseItem.Reasoning "r1" ["s"]]

/-- C2: for every classifier, sequence and n, with P the user-message boundary
positions of items: if P has at most n elements the truncation is empty (out
of range is not an error), and otherwise it is exactly the prefix of items
strictly before P[n], the boundary entry itself excluded. -/
theorem c2_truncate_before_nth_from_start (parse_turn_item : TurnClassifier)
    (items : List RolloutItem) (n : Nat) :
    ((user_message_positions_in_rollout parse_turn_item items).length ≤ n →
      truncate_rollout_before_nth_user_message_from_start parse_turn_item items n = []) ∧
    (∀ h : n < (user_message_positions_in_rollout parse_turn_item items).length,
      truncate_rollout_before_nth_user_message_from_start parse_turn_item items n =
        items.take ((user_message_positions_in_rollout parse_turn_item items).get ⟨n, h⟩)) := by
  refine ⟨truncate_eq_nil parse_turn_item items n, fun h => ?_⟩
  rw [truncate_eq_take parse_turn_item items n h]

theorem c2_witness :
    truncate_rollout_before_nth_user_message_from_start classify_by_role sample_rollout 2
      = [] ∧
    truncate_rollout_before_nth_user_message_from_start classify_by_role sample_rollout 1 =
      sample_rollout.take
        ((user_message_positions_in_rollout classify_by_role sample_rollout).get
          ⟨1, by decide⟩) :=
  ⟨(c2_truncate_before_nth_from_start classify_by_role sample_rollout 2).1 (by decide),
   (c2_truncate_before_nth_from_start classify_by_role sample_rollout 1).2 (by decide)⟩

/-- C3: for every classifier, sequence and num_turns at least 1, when items
has at least one user-message boundary (P nonempty, k = len(P)): the drop
returns items truncated at P[0] when num_turns is at least k (all user turns
dropped, the session prefix preserved), and at P[k - num_turns] otherwise. -/
theorem c3_drop_last_n_cut_points (parse_turn_item : TurnClassifier)
    (items : List ResponseItem) (num_turns : Nat)
    (h1 : 1 ≤ num_turns)
    (hP : user_message_positions_in_response_items parse_turn_item items ≠ []) :
    ((user_message_positions_in_response_items parse_turn_item items).length ≤ num_turns →
      drop_last_n_user_turns_from_response_items parse_turn_item items num_turns =
        items.take ((user_message_positions_in_response_items parse_turn_item items).get
          ⟨0, List.length_pos.mpr hP⟩)) ∧
    (∀ hk : num_turns < (user_message_positions_in_response_items parse_turn_item items).length,
      drop_last_n_user_turns_from_response_items parse_turn_item items num_turns =
        items.take ((user_message_positions_in_response_items parse_turn_item items).get
          ⟨(user_message_positions_in_response_items parse_turn_item items).length - num_turns,
           by omega⟩)) := by
  constructor
  · intro hk
    rw [drop_eq_take_of_many parse_turn_item items num_turns h1 hP hk,
      getD_eq_get_of_lt _ _ _ (List.length_pos.mpr hP)]
  · intro hk
    rw [drop_eq_take_of_few parse_turn_item items num_turns h1 hk,
      getD_eq_get_of_lt _ _ _ (by omega : (user_message_positions_in_response_items
        parse_turn_item items).length - num_turns <
        (user_message_positions_in_response_items parse_turn_item items).length)]

theorem c3_witness :
    drop_last_n_user_turns_from_response_items classify_by_role sample_items2 99 =
      sample_items2.take
        ((user_message_positions_in_response_items classify_by_role sample_items2).get
          ⟨0, by decide⟩) ∧
    drop_last_n_user_turns_from_response_items classify_by_role sample_items2 1 =
      sample_items2.take
        ((user_message_positions_in_response_items classify_by_role sample_items2).get
          ⟨(user_message_positions_in_response_items classify_by_role sample_items2).length - 1,
           by decide⟩) :=
  ⟨(c3_drop_last_n_cut_points classify_by_role sample_items2 99 (by decide) (by decide)).1
     (by decide),
   (c3_drop_last_n_cut_points classify_by_role sample_items2 1 (by decide) (by decide)).2
     (by decide)⟩

theorem drop_eq_self_of_no_boundary (parse_turn_item : TurnClassifier)
    (items : List ResponseItem) (num_turns : Nat)
    (hP : user_message_positions_in_response_items parse_turn_item items = []) :
    drop_last_n_user_turns_from_response_items parse_turn_item items num_turns = items := by
  by_cases h0 : num_turns = 0
  · rw [h0]
    rfl
  · simp [drop_last_n_user_turns_from_response_items, h0, hP]

/-- C7: the drop operation is the identity in its two no-op cases: num_turns
equal to 0, and a transcript with no user-message boundary. -/
theorem c7_drop_last_n_identity_cases (parse_turn_item : TurnClassifier)
    (items : List ResponseItem) :
    drop_last_n_user_turns_from_response_items parse_turn_item items 0 = items ∧
    (∀ num_turns,
      user_message_positions_in_response_items parse_turn_item items = [] →
      drop_last_n_user_turns_from_response_items parse_turn_item items num_turns = items) := by
  exact ⟨rfl, fun num_turns hP =>
    drop_eq_self_of_no_boundary parse_turn_item items num_turns hP⟩

theorem c7_witness :
    drop_last_n_user_turns_from_response_items classify_by_role sample_items 0 =
      sample_items ∧
    drop_last_n_user_turns_from_response_items classify_by_role sample_no_user 5 =
      sample_no_user :=
  ⟨(c7_drop_last_n_identity_cases classify_by_role sample_items).1,
   (c7_drop_last_n_identity_cases classify_by_role sample_no_user).2 5 (by decide)⟩

/-- C6: for every classifier, the position scans return, in strictly
increasing order, exactly the indices of entries that are Message-variant
entries whose classification resolves to TurnItem.UserMessage; any other
entry (reasoning, tool call, other variants, non-response rollout entries)
never appears among the returned positions. Stated for both the rollout scan
and the in-memory transcript scan. -/
theorem c6_user_message_positions_charact (parse_turn_item : TurnClassifier) :
    (∀ (items : List RolloutItem) (i : Nat),
      (i ∈ user_message_positions_in_rollout parse_turn_item items ↔
        ∃ h : i < items.length, ∃ mid role content m,
          items.get ⟨i, h⟩ = RolloutItem.ResponseItem (ResponseItem.Message mid role content) ∧
          parse_turn_item (ResponseItem.Message mid role content) =
            some (TurnItem.UserMessage m)) ∧
      List.Pairwise (· < ·) (user_message_positions_in_rollout parse_turn_item items)) ∧
    (∀ (items : List ResponseItem) (i : Nat),
      (i ∈ user_message_positions_in_response_items parse_turn_item items ↔
        ∃ h : i < items.length, ∃ mid role content m,
          items.get ⟨i, h⟩ = ResponseItem.Message mid role content ∧
          parse_turn_item (ResponseItem.Message mid role content) =
            some (TurnItem.UserMessage m)) ∧
      List.Pairwise (· < ·) (user_message_positions_in_response_items parse_turn_item items)) := by
  constructor
  · intro items i
    refine ⟨?_, pairwise_positionsFrom _ items 0⟩
    constructor
    · intro hi
      obtain ⟨j, hj, hij, hpj⟩ :=
        (mem_positionsFrom (is_user_message_boundary_in_rollout parse_turn_item) items 0 i).mp hi
      have hji : j = i := by omega
      subst hji
      obtain ⟨mid, role, content, m, he, hm⟩ :=
        (is_user_message_boundary_in_rollout_iff parse_turn_item _).mp hpj
      exact ⟨hj, mid, role, content, m, he, hm⟩
    · rintro ⟨h, mid, role, content, m, he, hm⟩
      refine (mem_positionsFrom (is_user_message_boundary_in_rollout parse_turn_item)
        items 0 i).mpr ⟨i, h, by omega, ?_⟩
      exact (is_user_message_boundary_in_rollout_iff parse_turn_item _).mpr
        ⟨mid, role, content, m, he, hm⟩
  · intro items i
    refine ⟨?_, pairwise_positionsFrom _ items 0⟩
    constructor
    · intro hi
      obtain ⟨j, hj, hij, hpj⟩ :=
        (mem_positionsFrom (is_user_message_boundary parse_turn_item) items 0 i).mp hi
      have hji : j = i := by omega
      subst hji
      obtain ⟨mid, role, content, m, he, hm⟩ :=
        (is_user_message_boundary_iff parse_turn_item _).mp hpj
      exact ⟨hj, mid, role, content, m, he, hm⟩
    · rintro ⟨h, mid, role, content, m, he, hm⟩
      refine (mem_positionsFrom (is_user_message_boundary parse_turn_item)
        items 0 i).mpr ⟨i, h, by omega, ?_⟩
      exact (is_user_message_boundary_iff parse_turn_item _).mpr
        ⟨mid, role, content, m, he, hm⟩

theorem c6_witness :
    List.Pairwise (· < ·) (user_message_positions_in_rollout classify_by_role sample_rollout) ∧
    0 ∈ user_message_positions_in_response_items classify_by_role sample_items :=
  ⟨((c6_user_message_positions_charact classify_by_role).1 sample_rollout 0).2,
   ((c6_user_message_positions_charact classify_by_role).2 sample_items 0).1.mpr
     ⟨by decide, none, "user", ["u1"], String.join ["u1"], by decide, by decide⟩⟩

/-- C10: for every classifier, sequence and n strictly below the number of
user-message boundaries, the truncation before the nth user message contains
exactly the first n boundaries of the input, in order, and hence exactly n
boundaries. -/
theorem c10_truncate_keeps_first_n_boundaries (parse_turn_item : TurnClassifier)
    (items : List RolloutItem) (n : Nat)
    (h : n < (user_message_positions_in_rollout parse_turn_item items).length) :
    user_message_positions_in_rollout parse_turn_item
        (truncate_rollout_before_nth_user_message_from_start parse_turn_item items n) =
      (user_message_positions_in_rollout parse_turn_item items).take n ∧
    (user_message_positions_in_rollout parse_turn_item
        (truncate_rollout_before_nth_user_message_from_start parse_turn_item items n)).length
      = n := by
  have hmain :
      user_message_positions_in_rollout parse_turn_item
          (truncate_rollout_before_nth_user_message_from_start parse_turn_item items n) =
        (user_message_positions_in_rollout parse_turn_item items).take n := by
    rw [truncate_eq_take parse_turn_item items n h]
    unfold user_message_positions_in_rollout
    rw [positionsFrom_take]
    simp only [Nat.zero_add]
    exact filter_lt_get_eq_take _
      (pairwise_positionsFrom (is_user_message_boundary_in_rollout parse_turn_item) items 0) n h
  refine ⟨hmain, ?_⟩
  rw [hmain, List.length_take]
  omega

theorem c10_witness :
    user_message_positions_in_rollout classify_by_role
        (truncate_rollout_before_nth_user_message_from_start classify_by_role sample_rollout 1) =
      (user_message_positions_in_rollout classify_by_role sample_rollout).take 1 ∧
    (user_message_positions_in_rollout classify_by_role
        (truncate_rollout_before_nth_user_message_from_start classify_by_role
          sample_rollout 1)).length = 1 :=
  c10_truncate_keeps_first_n_boundaries classify_by_role sample_rollout 1 (by decide)

/-- C9: the two truncation functions agree modulo boundary selection: with k
the number of user-message boundaries of a transcript and 1 <= num_turns < k,
dropping the last num_turns user turns equals truncating the element-wise
wrapped rollout stream before the (k - num_turns)th user message from the
start (stated with the drop result wrapped element-wise, which is unwrapping
read in reverse). -/
theorem c9_drop_agrees_with_truncate (parse_turn_item : TurnClassifier)
    (items : List ResponseItem) (num_turns : Nat)
    (h1 : 1 ≤ num_turns)
    (hk : num_turns < (user_message_positions_in_response_items parse_turn_item items).length) :
    truncate_rollout_before_nth_user_message_from_start parse_turn_item
        (items.map RolloutItem.ResponseItem)
        ((user_message_positions_in_response_items parse_turn_item items).length - num_turns) =
      (drop_last_n_user_turns_from_response_items parse_turn_item items num_turns).map
        RolloutItem.ResponseItem := by
  have hmap := user_message_positions_in_rollout_map parse_turn_item items
  have hn : (user_message_positions_in_response_items parse_turn_item items).length - num_turns <
      (user_message_positions_in_rollout parse_turn_item
        (items.map RolloutItem.ResponseItem)).length := by
    rw [hmap]
    omega
  rw [truncate_eq_take_getD parse_turn_item _ _ hn]
  rw [drop_eq_take_of_few parse_turn_item items num_turns h1 hk]
  rw [List.map_take, hmap]

theorem c9_witness :
    truncate_rollout_before_nth_user_message_from_start classify_by_role
        (sample_items.map RolloutItem.ResponseItem)
        ((user_message_positions_in_response_items classify_by_role sample_items).length - 1) =
      (drop_last_n_user_turns_from_response_items classify_by_role sample_items 1).map
        RolloutItem.ResponseItem :=
  c9_drop_agrees_with_truncate classify_by_role sample_items 1 (by decide) (by decide)

/-- C5: both truncation functions return a prefix of their input, in original
order, and the boundary position selected for the cut is never itself
included: the result's length never exceeds the cut boundary's index, which
is always one of the user-message boundary positions. -/
theorem c5_truncation_prefix_invariant (parse_turn_item : TurnClassifier) :
    (∀ (items : List RolloutItem) (n : Nat),
      truncate_rollout_before_nth_user_message_from_start parse_turn_item items n <+: items ∧
      ∀ h : n < (user_message_positions_in_rollout parse_turn_item items).length,
        (truncate_rollout_before_nth_user_message_from_start parse_turn_item items n).length ≤
          (user_message_positions_in_rollout parse_turn_item items).get ⟨n, h⟩) ∧
    (∀ (items : List ResponseItem) (num_turns : Nat),
      drop_last_n_user_turns_from_response_items parse_turn_item items num_turns <+: items ∧
      (1 ≤ num_turns →
        user_message_positions_in_response_items parse_turn_item items ≠ [] →
        ∃ cut ∈ user_message_positions_in_response_items parse_turn_item items,
          drop_last_n_user_turns_from_response_items parse_turn_item items num_turns =
            items.take cut ∧
          (drop_last_n_user_turns_from_response_items parse_turn_item items
            num_turns).length ≤ cut)) := by
  constructor
  · intro items n
    by_cases hlt : n < (user_message_positions_in_rollout parse_turn_item items).length
    · rw [truncate_eq_take parse_turn_item items n hlt]
      refine ⟨isPrefix_take items _, fun h => ?_⟩
      rw [List.length_take]
      exact min_le_left _ _
    · rw [truncate_eq_nil parse_turn_item items n (by omega)]
      exact ⟨isPrefix_nil items, fun h => absurd h hlt⟩
  · intro items num_turns
    by_cases h0 : num_turns = 0
    · subst h0
      refine ⟨?_, fun h1 => absurd h1 (by omega)⟩
      have hid : drop_last_n_user_turns_from_response_items parse_turn_item items 0 =
          items := rfl
      rw [hid]
    · by_cases hP : user_message_positions_in_response_items parse_turn_item items = []
      · rw [drop_eq_self_of_no_boundary parse_turn_item items num_turns hP]
        exact ⟨isPrefix_self items, fun _ hPne => absurd hP hPne⟩
      · have h1 : 1 ≤ num_turns := by omega
        by_cases hk :
          (user_message_positions_in_response_items parse_turn_item items).length ≤ num_turns
        · rw [drop_eq_take_of_many parse_turn_item items num_turns h1 hP hk]
          have hpos : 0 < (user_message_positions_in_response_items parse_turn_item
              items).length := List.length_pos.mpr hP
          rw [getD_eq_get_of_lt _ _ _ hpos]
          refine ⟨isPrefix_take items _, fun _ _ => ?_⟩
          refine ⟨_, List.get_mem _ 0 hpos, rfl, ?_⟩
          rw [List.length_take]
          exact min_le_left _ _
        · have hklt : num_turns <
              (user_message_positions_in_response_items parse_turn_item items).length := by
            omega
          rw [drop_eq_take_of_few parse_turn_item items num_turns h1 hklt]
          have hpos : (user_message_positions_in_response_items parse_turn_item items).length -
              num_turns <
              (user_message_positions_in_response_items parse_turn_item items).length := by
            omega
          rw [getD_eq_get_of_lt _ _ _ hpos]
          refine ⟨isPrefix_take items _, fun _ _ => ?_⟩
          refine ⟨_, List.get_mem _ _ hpos, rfl, ?_⟩
          rw [List.length_take]
          exact min_le_left _ _

theorem c5_witness :
    truncate_rollout_before_nth_user_message_from_start classify_by_role sample_rollout 1 <+:
      sample_rollout ∧
    drop_last_n_user_turns_from_response_items classify_by_role sample_items2 1 <+:
      sample_items2 :=
  ⟨((c5_truncation_prefix_invariant classify_by_role).1 sample_rollout 1).1,
   ((c5_truncation_prefix_invariant classify_by_role).2 sample_items2 1).1⟩

/-- C4: fork_conversation wraps the truncation result as the new session's
initial history with an empty result represented as New and a non-empty
result as Forked; consequently a Forked history produced by the fork path is
never the empty list. The last conjunct ties fork_conversation itself to the
wrap step: on a successfully loaded rollout it behaves exactly as resuming
with the wrapped truncation result. -/
theorem c4_forked_history_never_empty (parse_turn_item : TurnClassifier) :
    (∀ (items : List RolloutItem) (n : Nat),
      truncate_rollout_before_nth_user_message_from_start parse_turn_item items n = [] →
      fork_initial_history parse_turn_item items n = InitialHistory.New) ∧
    (∀ (items : List RolloutItem) (n : Nat),
      truncate_rollout_before_nth_user_message_from_start parse_turn_item items n ≠ [] →
      fork_initial_history parse_turn_item items n =
        InitialHistory.Forked
          (truncate_rollout_before_nth_user_message_from_start parse_turn_item items n)) ∧
    (∀ (items : List RolloutItem) (n : Nat) (l : List RolloutItem),
      fork_initial_history parse_turn_item items n = InitialHistory.Forked l → l ≠ []) ∧
    (∀ (st : ConversationManager) (env : SpawnEnv) (history0 : InitialHistory) (n : Nat),
      fork_conversation st env parse_turn_item (Except.ok history0) n =
        resume_conversation_with_history st env
          (fork_initial_history parse_turn_item history0.get_rollout_items n)) := by
  refine ⟨?_, ?_, ?_, ?_⟩
  · intro items n htr
    simp [fork_initial_history, htr]
  · intro items n htr
    simp [fork_initial_history, List.isEmpty_iff, htr]
  · intro items n l hf
    by_cases he : truncate_rollout_before_nth_user_message_from_start parse_turn_item items n = []
    · simp [fork_initial_history, he] at hf
    · simp only [fork_initial_history, List.isEmpty_iff, he, if_false,
        InitialHistory.Forked.injEq] at hf
      rw [← hf]
      exact he
  · intro st env history0 n
    rfl

theorem c4_witness :
    fork_initial_history classify_by_role sample_rollout 0 = InitialHistory.New ∧
    fork_initial_history classify_by_role sample_rollout 1 =
      InitialHistory.Forked
        (truncate_rollout_before_nth_user_message_from_start classify_by_role
          sample_rollout 1) :=
  ⟨(c4_forked_history_never_empty classify_by_role).1 sample_rollout 0 (by decide),
   (c4_forked_history_never_empty classify_by_role).2.1 sample_rollout 1 (by decide)⟩

/-- Sample spawner/event-stream oracle: spawning always succeeds with a fixed
session handle and id, and the session's first event is a well-formed
SessionConfigured event correlated to the initial submission id. -/
def sample_env : SpawnEnv :=
  { spawn := fun _ => Except.ok { codex := 7, conversation_id := 42 }
    next_event := fun _ => Except.ok
      { id := INITIAL_SUBMIT_ID
        msg := EventMsg.SessionConfigured { rollout_path := "rollout.jsonl", metadata := 0 } } }

/-- C1: the spawn-validation protocol shared by every creation path. The
first event must have id INITIAL_SUBMIT_ID and a SessionConfigured message;
any other id or variant yields the distinct SessionConfiguredNotFirstEvent
error with the registry untouched; on success the handle built from the
event's rollout path is inserted under the spawner's id and the id, handle
and event are returned. The last group shows each creation path
(new_conversation, resume_conversation_with_history,
resume_conversation_from_rollout, fork_conversation) reaches exactly this
validation on the first event after a successful spawn. -/
theorem c1_spawn_protocol (st : ConversationManager) (codex : Codex)
    (conversation_id : ConversationId) (ev : Event) :
    ((ev.id ≠ INITIAL_SUBMIT_ID ∨ ∀ sc, ev.msg ≠ EventMsg.SessionConfigured sc) →
      finalize_spawn st codex (Except.ok ev) conversation_id =
        (Except.error CodexErr.SessionConfiguredNotFirstEvent, st)) ∧
    (∀ sc, ev.id = INITIAL_SUBMIT_ID → ev.msg = EventMsg.SessionConfigured sc →
      finalize_spawn st codex (Except.ok ev) conversation_id =
        (Except.ok
          { conversation_id := conversation_id
            conversation := { codex := codex, rollout_path := sc.rollout_path }
            session_configured := sc },
         { st with
             conversations :=
               registry_insert st.conversations conversation_id
                 ⟨codex, sc.rollout_path⟩ })) ∧
    (∀ (env : SpawnEnv) (ok : CodexSpawnOk) (parse_turn_item : TurnClassifier),
      (env.spawn InitialHistory.New = Except.ok ok →
        new_conversation st env =
          finalize_spawn st ok.codex (env.next_event ok.codex) ok.conversation_id) ∧
      (∀ ih, env.spawn ih = Except.ok ok →
        resume_conversation_with_history st env ih =
          finalize_spawn st ok.codex (env.next_event ok.codex) ok.conversation_id) ∧
      (∀ ih, env.spawn ih = Except.ok ok →
        resume_conversation_from_rollout st env (Except.ok ih) =
          finalize_spawn st ok.codex (env.next_event ok.codex) ok.conversation_id) ∧
      (∀ (history0 : InitialHistory) (n : Nat),
        env.spawn (fork_initial_history parse_turn_item history0.get_rollout_items n) =
          Except.ok ok →
        fork_conversation st env parse_turn_item (Except.ok history0) n =
          finalize_spawn st ok.codex (env.next_event ok.codex) ok.conversation_id)) := by
  refine ⟨?_, ?_, ?_⟩
  · intro hbad
    obtain ⟨id, msg⟩ := ev
    cases msg with
    | SessionConfigured sc =>
      rcases hbad with h | h
      · simp only [finalize_spawn]
        rw [if_neg h]
      · exact absurd rfl (h sc)
    | OtherEventMsg => rfl
  · intro sc hid hmsg
    obtain ⟨id, msg⟩ := ev
    simp only at hid hmsg
    subst hid
    subst hmsg
    simp [finalize_spawn]
  · intro env ok parse_turn_item
    refine ⟨?_, ?_, ?_, ?_⟩
    · intro hspawn
      simp [new_conversation, spawn_conversation, hspawn]
    · intro ih hspawn
      simp [resume_conversation_with_history, hspawn]
    · intro ih hspawn
      simp [resume_conversation_from_rollout, resume_conversation_with_history, hspawn]
    · intro history0 n hspawn
      simp [fork_conversation, resume_conversation_with_history, hspawn]

/-- Shorthand for a manager with an empty registry. -/
def empty_manager : ConversationManager :=
  { conversations := [] }

/-- Shorthand for a sample first event with a wrong correlation id. -/
def bad_id_event : Event :=
  { id := "1", msg := EventMsg.SessionConfigured { rollout_path := "p", metadata := 0 } }

/-- Shorthand for a sample well-formed first event. -/
def good_event : Event :=
  { id := INITIAL_SUBMIT_ID,
    msg := EventMsg.SessionConfigured { rollout_path := "p", metadata := 0 } }

theorem c1_witness :
    finalize_spawn empty_manager 3 (Except.ok bad_id_event) 5 =
      (Except.error CodexErr.SessionConfiguredNotFirstEvent, empty_manager) ∧
    finalize_spawn empty_manager 3 (Except.ok good_event) 5 =
      (Except.ok
        { conversation_id := 5
          conversation := { codex := 3, rollout_path := "p" }
          session_configured := { rollout_path := "p", metadata := 0 } },
       { conversations := registry_insert [] 5 ({ codex := 3, rollout_path := "p" }) }) :=
  ⟨(c1_spawn_protocol empty_manager 3 5 bad_id_event).1 (Or.inl (by decide)),
   (c1_spawn_protocol empty_manager 3 5 good_event).2.1
     ({ rollout_path := "p", metadata := 0 }) rfl rfl⟩

/-- C8: registry lifecycle — after a creation path succeeds with id X, the
lookup of X returns exactly the handle returned to the creator; the binding
survives registry operations on other ids (inserts from other finalize_spawn
calls and removals of other ids); once X is removed, looking X up fails with
the not-found error and removing X again returns none. -/
theorem c8_registry_lifecycle :
    (∀ (st : ConversationManager) (env : SpawnEnv) (nc : NewConversation)
        (st' : ConversationManager),
      new_conversation st env = (Except.ok nc, st') →
      get_conversation st' nc.conversation_id = Except.ok nc.conversation) ∧
    (∀ (st : ConversationManager) (X : ConversationId) (c : CodexConversation),
      get_conversation st X = Except.ok c →
        (∀ (codex : Codex) (fe : Except CodexErr Event) (cid : ConversationId),
          cid ≠ X →
          get_conversation (finalize_spawn st codex fe cid).2 X = Except.ok c) ∧
        (∀ Y, Y ≠ X →
          get_conversation (remove_conversation st Y).2 X = Except.ok c)) ∧
    (∀ (st : ConversationManager) (X : ConversationId),
      get_conversation (remove_conversation st X).2 X =
        Except.error (CodexErr.ConversationNotFound X) ∧
      (remove_conversation (remove_conversation st X).2 X).1 = none) := by
  refine ⟨?_, ?_, ?_⟩
  · intro st env nc st' h
    simp only [new_conversation, spawn_conversation] at h
    cases hsp : env.spawn InitialHistory.New with
    | error e => rw [hsp] at h; simp at h
    | ok okv =>
      rw [hsp] at h
      dsimp only at h
      cases hev : env.next_event okv.codex with
      | error e => rw [hev] at h; simp [finalize_spawn] at h
      | ok event =>
        rw [hev] at h
        obtain ⟨id, msg⟩ := event
        cases msg with
        | OtherEventMsg => simp [finalize_spawn] at h
        | SessionConfigured sc =>
          by_cases hid : id = INITIAL_SUBMIT_ID
          · simp only [finalize_spawn, if_pos hid, Prod.mk.injEq, Except.ok.injEq] at h
            obtain ⟨hnc, hst'⟩ := h
            subst hnc
            subst hst'
            simp [get_conversation, registry_get_insert]
          · simp [finalize_spawn, hid] at h
  · intro st X c hget
    have hreg : registry_get st.conversations X = some c := by
      unfold get_conversation at hget
      cases hr : registry_get st.conversations X with
      | none => rw [hr] at hget; simp at hget
      | some c' => rw [hr] at hget; simp at hget; rw [hget]
    constructor
    · intro codex fe cid hne
      cases fe with
      | error e => simp [finalize_spawn, get_conversation, hreg]
      | ok event =>
        obtain ⟨id, msg⟩ := event
        cases msg with
        | OtherEventMsg => simp [finalize_spawn, get_conversation, hreg]
        | SessionConfigured sc =>
          by_cases hid : id = INITIAL_SUBMIT_ID
          · simp only [finalize_spawn, if_pos hid, get_conversation]
            rw [registry_get_insert_ne _ _ _ _ (Ne.symm hne), hreg]
          · simp [finalize_spawn, hid, get_conversation, hreg]
    · intro Y hne
      simp only [remove_conversation, registry_remove, get_conversation]
      rw [registry_get_remove_ne _ _ _ (Ne.symm hne), hreg]
  · intro st X
    constructor
    · simp only [remove_conversation, registry_remove, get_conversation]
      rw [registry_get_remove_self]
    · simp only [remove_conversation, registry_remove]
      rw [registry_get_remove_self]

theorem c8_witness :
    get_conversation (new_conversation empty_manager sample_env).2 42 =
      Except.ok ({ codex := 7, rollout_path := "rollout.jsonl" }) ∧
    get_conversation
        (remove_conversation (new_conversation empty_manager sample_env).2 42).2 42 =
      Except.error (CodexErr.ConversationNotFound 42) ∧
    (remove_conversation
        (remove_conversation (new_conversation empty_manager sample_env).2 42).2 42).1 =
      none := by
  have h1 := c8_registry_lifecycle.1 empty_manager sample_env
    ({ conversation_id := 42
       conversation := { codex := 7, rollout_path := "rollout.jsonl" }
       session_configured := { rollout_path := "rollout.jsonl", metadata := 0 } })
    (new_conversation empty_manager sample_env).2 rfl
  have h3 := c8_registry_lifecycle.2.2 (new_conversation empty_manager sample_env).2 42
  exact ⟨h1, h3.1, h3.2⟩
